import Mathlib

/-!
Shallow embedding of `machine.py` from the `262-logical-clocks` repository:
a single virtual machine maintaining a Lamport logical clock, an inbound
FIFO queue of received timestamps, and an append-only structured event log.

Wall-clock readings (`time.time()`) are nondeterministic inputs; each
operation that records a `system_time` takes it as an explicit parameter.
Random draws (`random.randint`) are likewise explicit parameters.
Network transmission is modelled by returning the list of
(recipient, payload) pairs the send loop writes out.
-/

namespace LogicalClocks

/-- The JSON event records of the log schema.  `machine.py` contains exactly
three `log_file.write` sites (RECEIVE, SEND, INTERNAL dict literals); the
STARTUP and END variants appear in the repository's log schema and tests, so
the record type carries them, letting us state which variants a run of the
code can actually produce.  `queue_len` is `qsize()`, a count, hence `Nat`. -/
inductive EventRecord where
  | startup (system_time clock_rate : Int)
  | receive (system_time old_clock new_clock : Int) (queue_len : Nat)
  | send (system_time old_clock new_clock : Int) (recipients : List (String × Int))
  | internal (system_time old_clock new_clock : Int)
  | endRun (system_time final_clock : Int)
  deriving DecidableEq, Repr

/-- The value of the `"event"` key of each record. -/
def EventRecord.eventName : EventRecord → String
  | .startup _ _ => "STARTUP"
  | .receive _ _ _ _ => "RECEIVE"
  | .send _ _ _ _ => "SEND"
  | .internal _ _ _ => "INTERNAL"
  | .endRun _ _ => "END"

/-- Whether a record is a SEND record. -/
def EventRecord.isSendEvt : EventRecord → Bool
  | .send _ _ _ _ => true
  | _ => false

/-- Whether a record is a RECEIVE record. -/
def EventRecord.isReceiveEvt : EventRecord → Bool
  | .receive _ _ _ _ => true
  | _ => false

/-- Whether a record is an INTERNAL record. -/
def EventRecord.isInternalEvt : EventRecord → Bool
  | .internal _ _ _ => true
  | _ => false

/-- The mutable and fixed fields of a `Machine` instance (`Machine.__init__`).
The inbound `queue.Queue` is a FIFO list (head = oldest element); the
line-buffered log file is the list of records written so far, in order;
`log_closed` reflects `log_file.close()`. -/
structure MachineState where
  machine_id : Int
  listen_port : Int
  peer_addresses : List (String × Int)
  log_filename : String
  run_seconds : Int
  clock_rate : Int
  local_clock : Int
  incoming_queue : List Int
  log : List EventRecord
  running : Bool
  log_closed : Bool
  deriving DecidableEq, Repr

/-- Embeds `Machine.__init__`: the configuration is stored, the clock-rate
draw `random.randint(1, 6)` is the explicit parameter `clock_rate`,
`local_clock` starts at 0, the queue and the freshly opened log file are
empty, and `running` is set.  No record is written. -/
def machineInit (machine_id listen_port : Int) (peer_addresses : List (String × Int))
    (log_filename : String) (run_seconds clock_rate : Int) : MachineState :=
  { machine_id := machine_id
    listen_port := listen_port
    peer_addresses := peer_addresses
    log_filename := log_filename
    run_seconds := run_seconds
    clock_rate := clock_rate
    local_clock := 0
    incoming_queue := []
    log := []
    running := true
    log_closed := false }

/-- Embeds `Machine.handle_receive`: dequeue one message, set
`local_clock = max(local_clock, msg_timestamp) + 1`, read the queue size
after the dequeue, and append one RECEIVE record.  `incoming_queue.get()`
blocks forever on an empty queue (the tick loop only calls this when the
queue is non-empty), so the empty case returns `none`. -/
def handle_receive (sys_time : Int) (s : MachineState) : Option MachineState :=
  match s.incoming_queue with
  | [] => none
  | msg_timestamp :: restQueue =>
    let old_clock := s.local_clock
    let new_clock := max s.local_clock msg_timestamp + 1
    let queue_len := restQueue.length
    some { s with
      local_clock := new_clock
      incoming_queue := restQueue
      log := s.log ++ [.receive sys_time old_clock new_clock queue_len] }

/-- Embeds `Machine.send_message`: record the old clock, increment
`local_clock` once, then for each recipient open a connection and transmit
the current (post-increment) `local_clock` as one line; finally append one
SEND record listing the recipients.  The transmissions are returned as
(recipient, payload) pairs; per-recipient connection failures are swallowed
in the source and do not affect the state. -/
def send_message (sys_time : Int) (recipients : List (String × Int)) (s : MachineState) :
    MachineState × List ((String × Int) × Int) :=
  let old_clock := s.local_clock
  let new_clock := s.local_clock + 1
  let sent := recipients.map fun hp => (hp, new_clock)
  ({ s with
      local_clock := new_clock
      log := s.log ++ [.send sys_time old_clock new_clock recipients] },
   sent)

/-- Embeds `Machine.internal_event`: increment `local_clock` by 1 and append
one INTERNAL record. -/
def internal_event (sys_time : Int) (s : MachineState) : MachineState :=
  let old_clock := s.local_clock
  let new_clock := s.local_clock + 1
  { s with
    local_clock := new_clock
    log := s.log ++ [.internal sys_time old_clock new_clock] }

/-- Embeds `Machine.handle_no_message`: the draw `r = random.randint(1, 10)`
is an explicit parameter; the `if`/`elif` chain of the source dispatches on
`r` and the peer count.  `peer_addresses.take 1` is `[self.peer_addresses[0]]`
and `(peer_addresses.drop 1).take 1` is `[self.peer_addresses[1]]` under the
guarding length conditions. -/
def handle_no_message (sys_time r : Int) (s : MachineState) :
    MachineState × List ((String × Int) × Int) :=
  if r = 1 ∧ 0 < s.peer_addresses.length then
    send_message sys_time (s.peer_addresses.take 1) s
  else if r = 2 ∧ 1 < s.peer_addresses.length then
    send_message sys_time ((s.peer_addresses.drop 1).take 1) s
  else if r = 3 ∧ 1 < s.peer_addresses.length then
    send_message sys_time s.peer_addresses s
  else
    (internal_event sys_time s, [])

/-- One iteration of the body of `Machine.main_loop` after the sleep:
if the inbound queue is non-empty, handle a receive, else dispatch on the
random draw.  The `none` fallback of `handle_receive` is unreachable (the
queue was just checked to be non-empty). -/
def tick (sys_time r : Int) (s : MachineState) : MachineState × List ((String × Int) × Int) :=
  if s.incoming_queue.isEmpty then
    handle_no_message sys_time r s
  else
    match handle_receive sys_time s with
    | some s2 => (s2, [])
    | none => (s, [])

/-- The nondeterministic inputs of one tick of `Machine.main_loop`: the
wall-clock reading, the `randint(1, 10)` draw, and the timestamps the
connection-handler threads enqueued since the previous tick (appended to
the FIFO before the tick body runs). -/
structure TickInput where
  sys_time : Int
  r : Int
  arrivals : List Int
  deriving Repr

/-- Embeds `Machine.main_loop`: ticks happen while `running` holds and the
duration has not elapsed (the list of `TickInput`s is exactly the ticks that
fit in the duration; an externally cleared `running` flag cuts the list
short via the `running` check); on exit `running` is cleared. -/
def main_loop (ticks : List TickInput) (s : MachineState) : MachineState :=
  match ticks with
  | [] => { s with running := false }
  | ti :: rest =>
    if s.running then
      let s1 := { s with incoming_queue := s.incoming_queue ++ ti.arrivals }
      main_loop rest (tick ti.sys_time ti.r s1).1
    else
      { s with running := false }

/-- Embeds `Machine.shutdown`: clear `running`, close the server socket,
close the log file.  No record is written. -/
def shutdown (s : MachineState) : MachineState :=
  { s with running := false, log_closed := true }

/-- Embeds `Machine.start`: run the main loop (the listener thread only
feeds the queue, which the `TickInput` arrivals model), then shut down. -/
def start (ticks : List TickInput) (s : MachineState) : MachineState :=
  shutdown (main_loop ticks s)

/-! ## Connection handler (`Machine.handle_incoming_connection`)

The handler decodes a received chunk, strips it, splits it on newlines,
strips each line, and for each non-empty line attempts `int(line)`: success
enqueues the integer, `ValueError` is swallowed (`pass`) and the loop moves
to the next line. -/

/-- The digit tail of Python's `int()` on a decimal literal: after the first
digit, further characters are digits, with single underscores allowed only
between two digits (`int("1_0") == 10`, `int("1__0")` and `int("1_")`
raise). -/
def pyDigitsTail (acc : Nat) : List Char → Option Nat
  | [] => some acc
  | c :: cs =>
    if c.isDigit then pyDigitsTail (acc * 10 + (c.toNat - 48)) cs
    else if c = '_' then
      match cs with
      | [] => none
      | d :: cs2 => if d.isDigit then pyDigitsTail (acc * 10 + (d.toNat - 48)) cs2 else none
    else none

/-- The unsigned part of Python's `int()` on a string: at least one leading
digit, then `pyDigitsTail`. -/
def pyIntCore : List Char → Option Nat
  | [] => none
  | c :: cs => if c.isDigit then pyDigitsTail (c.toNat - 48) cs else none

/-- Embeds Python's `int(line)` on an already-stripped line: an optional
sign followed by a decimal digit sequence; anything else raises
`ValueError`, modelled as `none`. -/
def pyInt (line : String) : Option Int :=
  match line.data with
  | '+' :: cs => (pyIntCore cs).map Int.ofNat
  | '-' :: cs => (pyIntCore cs).map fun n => -(Int.ofNat n : Int)
  | cs => (pyIntCore cs).map Int.ofNat

/-- The body of the per-line loop of `handle_incoming_connection`: strip the
line, skip it when empty, try `int(line)` and enqueue on success, swallow the
`ValueError` (enqueueing nothing) on failure. -/
def processLine (q : List Int) (line : String) : List Int :=
  let stripped := line.trim
  if stripped.isEmpty then q
  else
    match pyInt stripped with
    | some timestamp => q ++ [timestamp]
    | none => q

/-- Embeds the handling of one received chunk in
`Machine.handle_incoming_connection`: `data.decode('utf-8').strip().split('\n')`
then the per-line loop, threaded over the inbound queue `q`. -/
def handleIncomingData (q : List Int) (data : String) : List Int :=
  (data.trim.splitOn "\n").foldl processLine q

/-- The sequence of timestamps a chunk contributes: each line's stripped
text parsed by `int`, failures and blank lines dropped, order preserved. -/
def parsedTimestamps (data : String) : List Int :=
  (data.trim.splitOn "\n").filterMap fun line =>
    if line.trim.isEmpty then none else pyInt line.trim

/-! ## The JSON layer (`json.dumps` / `json.loads`)

Each `log_file.write(json.dumps(event_data) + "\n")` site serializes a
Python dict.  `PyValue` models the Python values reachable in those dicts
(ints, strings, tuples, lists, string-keyed dicts); `Json` models the JSON
document on the wire.  `json.dumps` maps both tuples and lists to JSON
arrays; `json.loads` reads every array back as a list — the composition is
exactly what re-parsing an emitted log line computes.  `system_time` is a
wall-clock float in the source; Python floats round-trip exactly through
`repr`, so modelling the number as an opaque `Int` loses nothing relevant
to round-trip questions. -/

/-- Python values appearing in the event dicts of `machine.py`. -/
inductive PyValue where
  | int (n : Int)
  | str (s : String)
  | tuple (xs : List PyValue)
  | list (xs : List PyValue)
  | dict (kvs : List (String × PyValue))
  deriving Repr

/-- JSON documents. -/
inductive Json where
  | num (n : Int)
  | str (s : String)
  | arr (xs : List Json)
  | obj (kvs : List (String × Json))
  deriving Repr

mutual

/-- Embeds `json.dumps` at the document level: ints to numbers, strings to
strings, tuples and lists both to arrays, dicts to objects. -/
def pyDumps : PyValue → Json
  | .int n => .num n
  | .str s => .str s
  | .tuple xs => .arr (pyDumpsList xs)
  | .list xs => .arr (pyDumpsList xs)
  | .dict kvs => .obj (pyDumpsKVs kvs)

/-- `pyDumps` over the elements of a tuple or list. -/
def pyDumpsList : List PyValue → List Json
  | [] => []
  | x :: xs => pyDumps x :: pyDumpsList xs

/-- `pyDumps` over the values of a dict. -/
def pyDumpsKVs : List (String × PyValue) → List (String × Json)
  | [] => []
  | (k, v) :: kvs => (k, pyDumps v) :: pyDumpsKVs kvs

end

mutual

/-- Embeds `json.loads` at the document level: numbers to ints, strings to
strings, arrays to lists (never tuples), objects to dicts. -/
def pyLoads : Json → PyValue
  | .num n => .int n
  | .str s => .str s
  | .arr xs => .list (pyLoadsList xs)
  | .obj kvs => .dict (pyLoadsKVs kvs)

/-- `pyLoads` over the elements of an array. -/
def pyLoadsList : List Json → List PyValue
  | [] => []
  | x :: xs => pyLoads x :: pyLoadsList xs

/-- `pyLoads` over the values of an object. -/
def pyLoadsKVs : List (String × Json) → List (String × PyValue)
  | [] => []
  | (k, v) :: kvs => (k, pyLoads v) :: pyLoadsKVs kvs

end

/-- Serialize an emitted record as a JSON line and re-parse it. -/
def jsonRoundTrip (v : PyValue) : PyValue := pyLoads (pyDumps v)

/-- The `event_data` dict literal of `Machine.handle_receive`. -/
def receiveEventData (sys_time old_clock new_clock : Int) (queue_len : Nat) : PyValue :=
  .dict [("event", .str "RECEIVE"), ("system_time", .int sys_time),
         ("old_clock", .int old_clock), ("new_clock", .int new_clock),
         ("queue_len", .int queue_len)]

/-- The `event_data` dict literal of `Machine.send_message`: `recipients` is
the Python list of `(host, port)` tuples passed in. -/
def sendEventData (sys_time old_clock new_clock : Int)
    (recipients : List (String × Int)) : PyValue :=
  .dict [("event", .str "SEND"), ("system_time", .int sys_time),
         ("old_clock", .int old_clock), ("new_clock", .int new_clock),
         ("recipients", .list (recipients.map fun hp => .tuple [.str hp.1, .int hp.2]))]

/-- `sendEventData` as `json.loads` reproduces it: each `(host, port)` tuple
has come back as a two-element list. -/
def sendEventDataParsed (sys_time old_clock new_clock : Int)
    (recipients : List (String × Int)) : PyValue :=
  .dict [("event", .str "SEND"), ("system_time", .int sys_time),
         ("old_clock", .int old_clock), ("new_clock", .int new_clock),
         ("recipients", .list (recipients.map fun hp => .list [.str hp.1, .int hp.2]))]

/-- The `event_data` dict literal of `Machine.internal_event`. -/
def internalEventData (sys_time old_clock new_clock : Int) : PyValue :=
  .dict [("event", .str "INTERNAL"), ("system_time", .int sys_time),
         ("old_clock", .int old_clock), ("new_clock", .int new_clock)]

mutual

/-- Whether a Python value contains a tuple anywhere (tuples and lists are
distinct, non-equal Python values). -/
def PyValue.containsTuple : PyValue → Bool
  | .int _ => false
  | .str _ => false
  | .tuple _ => true
  | .list xs => PyValue.containsTupleList xs
  | .dict kvs => PyValue.containsTupleKVs kvs

/-- `PyValue.containsTuple` over the elements of a list. -/
def PyValue.containsTupleList : List PyValue → Bool
  | [] => false
  | x :: xs => PyValue.containsTuple x || PyValue.containsTupleList xs

/-- `PyValue.containsTuple` over the values of a dict. -/
def PyValue.containsTupleKVs : List (String × PyValue) → Bool
  | [] => false
  | (_, v) :: kvs => PyValue.containsTuple v || PyValue.containsTupleKVs kvs

end

/-! ## Shared lemmas about the tick loop -/

/-- The property of every record a tick of the loop can append: it is a
RECEIVE, SEND or INTERNAL record, and never a SEND when the machine has no
peers. -/
def tickEvt (e : EventRecord) (peers : List (String × Int)) : Prop :=
  (e.isReceiveEvt = true ∨ e.isSendEvt = true ∨ e.isInternalEvt = true) ∧
  (peers = [] → e.isSendEvt = false)

theorem handle_no_message_log_cases (sys_time r : Int) (s : MachineState) :
    ∃ e, ((handle_no_message sys_time r s).1).log = s.log ++ [e] ∧
      tickEvt e s.peer_addresses := by
  unfold handle_no_message
  split
  · exact ⟨_, rfl, Or.inr (Or.inl rfl), fun h => by
      rename_i hc; rw [h] at hc; exact absurd hc.2 (by simp)⟩
  · split
    · exact ⟨_, rfl, Or.inr (Or.inl rfl), fun h => by
        rename_i hc; rw [h] at hc; exact absurd hc.2 (by simp)⟩
    · split
      · exact ⟨_, rfl, Or.inr (Or.inl rfl), fun h => by
          rename_i hc; rw [h] at hc; exact absurd hc.2 (by simp)⟩
      · exact ⟨_, rfl, Or.inr (Or.inr rfl), fun _ => rfl⟩

theorem tick_log_cases (sys_time r : Int) (s : MachineState) :
    ∃ e, ((tick sys_time r s).1).log = s.log ++ [e] ∧ tickEvt e s.peer_addresses := by
  unfold tick
  split
  · exact handle_no_message_log_cases sys_time r s
  · rename_i hne
    match hq : s.incoming_queue with
    | [] => rw [hq] at hne; simp at hne
    | t :: rest =>
      refine ⟨.receive sys_time s.local_clock (max s.local_clock t + 1) rest.length,
        ?_, Or.inl rfl, fun _ => rfl⟩
      simp [handle_receive, hq]

theorem handle_no_message_peers (sys_time r : Int) (s : MachineState) :
    ((handle_no_message sys_time r s).1).peer_addresses = s.peer_addresses := by
  unfold handle_no_message send_message internal_event
  split
  · rfl
  · split
    · rfl
    · split
      · rfl
      · rfl

theorem tick_peers (sys_time r : Int) (s : MachineState) :
    ((tick sys_time r s).1).peer_addresses = s.peer_addresses := by
  unfold tick
  split
  · exact handle_no_message_peers sys_time r s
  · rename_i hne
    match hq : s.incoming_queue with
    | [] => rw [hq] at hne; simp at hne
    | t :: rest => simp [handle_receive, hq]

theorem main_loop_log_append (ticks : List TickInput) (s : MachineState) :
    ∃ l, (main_loop ticks s).log = s.log ++ l ∧
      ∀ e ∈ l, tickEvt e s.peer_addresses := by
  induction ticks generalizing s with
  | nil => exact ⟨[], by simp [main_loop], by simp⟩
  | cons ti rest ih =>
    unfold main_loop
    split
    · set s1 : MachineState := { s with incoming_queue := s.incoming_queue ++ ti.arrivals }
      obtain ⟨e, he, hev⟩ := tick_log_cases ti.sys_time ti.r s1
      obtain ⟨l, hl, hlev⟩ := ih ((tick ti.sys_time ti.r s1).1)
      refine ⟨e :: l, ?_, ?_⟩
      · rw [hl, he]; simp
      · intro x hx
        rcases List.mem_cons.mp hx with hx | hx
        · subst hx; exact hev
        · have := hlev x hx
          rwa [tick_peers] at this
    · exact ⟨[], by simp, by simp⟩

theorem start_log_append (ticks : List TickInput) (s : MachineState) :
    ∃ l, (start ticks s).log = s.log ++ l ∧ ∀ e ∈ l, tickEvt e s.peer_addresses :=
  main_loop_log_append ticks s

theorem tickEvt_not_startup {e : EventRecord} {peers : List (String × Int)}
    (h : tickEvt e peers) : e.eventName ≠ "STARTUP" := by
  rcases h.1 with h1 | h1 | h1 <;>
    (cases e <;> simp_all [EventRecord.isReceiveEvt, EventRecord.isSendEvt,
      EventRecord.isInternalEvt, EventRecord.eventName])

theorem tickEvt_not_end {e : EventRecord} {peers : List (String × Int)}
    (h : tickEvt e peers) : e.eventName ≠ "END" := by
  rcases h.1 with h1 | h1 | h1 <;>
    (cases e <;> simp_all [EventRecord.isReceiveEvt, EventRecord.isSendEvt,
      EventRecord.isInternalEvt, EventRecord.eventName])

/-! ## Claim theorems -/

/-- C1: when the inbound queue is non-empty with oldest element `t`, the
receive step dequeues exactly `t`, sets the clock to
`max(old local_clock, t) + 1`, and appends exactly one RECEIVE record whose
`old_clock` is the pre-step clock and whose `new_clock` is the post-step
clock. -/
theorem receive_step_correct (sys_time : Int) (s : MachineState) (t : Int)
    (rest : List Int) (h : s.incoming_queue = t :: rest) :
    handle_receive sys_time s =
      some { s with
        local_clock := max s.local_clock t + 1
        incoming_queue := rest
        log := s.log ++
          [.receive sys_time s.local_clock (max s.local_clock t + 1) rest.length] } := by
  simp [handle_receive, h]

/-- C1 witness: a fresh machine (`local_clock = 0`) with the single enqueued
value 10 ends the receive step with `local_clock = 11` and exactly one
RECEIVE record with `old_clock = 0`, `new_clock = 11`. -/
theorem receive_step_correct_witness :
    handle_receive 99 { machineInit 1 5001 [] "log" 60 3 with incoming_queue := [10] } =
      some { machineInit 1 5001 [] "log" 60 3 with
        local_clock := 11
        incoming_queue := []
        log := [.receive 99 0 11 0] } := by
  have h := receive_step_correct 99
    { machineInit 1 5001 [] "log" 60 3 with incoming_queue := [10] } 10 [] rfl
  rw [h]; decide

/-- C2: a SEND invocation increments the clock exactly once per invocation
regardless of the number of recipients, transmitting the same single
post-increment clock value to every recipient, and an INTERNAL event also
increments the clock by exactly 1. -/
theorem send_internal_increment (sys_time : Int) (recipients : List (String × Int))
    (s : MachineState) :
    ((send_message sys_time recipients s).1).local_clock = s.local_clock + 1 ∧
    (send_message sys_time recipients s).2 =
      recipients.map (fun hp => (hp, s.local_clock + 1)) ∧
    (internal_event sys_time s).local_clock = s.local_clock + 1 :=
  ⟨rfl, rfl, rfl⟩

/-- C6: the `queue_len` recorded on a RECEIVE equals the queue size
immediately after the dequeue: with `n` elements before the step, the
record carries `n - 1`. -/
theorem receive_queue_len (sys_time : Int) (s : MachineState) (t : Int)
    (rest : List Int) (h : s.incoming_queue = t :: rest) :
    ∃ s2, handle_receive sys_time s = some s2 ∧
      s2.incoming_queue.length = s.incoming_queue.length - 1 ∧
      s2.log = s.log ++
        [.receive sys_time s.local_clock s2.local_clock (s.incoming_queue.length - 1)] := by
  refine ⟨{ s with
      local_clock := max s.local_clock t + 1
      incoming_queue := rest
      log := s.log ++
        [.receive sys_time s.local_clock (max s.local_clock t + 1) rest.length] },
    by simp [handle_receive, h], ?_, ?_⟩
  · simp [h]
  · simp [h]

/-- C6 witness: with two queued values, the RECEIVE record carries
`queue_len = 1`. -/
theorem receive_queue_len_witness :
    ∃ s2, handle_receive 7 { machineInit 2 5002 [] "log" 60 1 with incoming_queue := [4, 9] } =
        some s2 ∧
      s2.incoming_queue.length = 1 ∧
      s2.log = [.receive 7 0 5 1] := by
  obtain ⟨s2, h1, h2, h3⟩ := receive_queue_len 7
    { machineInit 2 5002 [] "log" 60 1 with incoming_queue := [4, 9] } 4 [9] rfl
  have hs2 : s2 = { machineInit 2 5002 [] "log" 60 1 with
      local_clock := 5, incoming_queue := [9], log := [.receive 7 0 5 1] } :=
    Option.some.inj (h1.symm.trans (by decide))
  subst hs2
  exact ⟨_, h1, by decide, by decide⟩

/-- C7: every clock-modifying operation is monotone: a receive step (for
every possible received timestamp, including ones smaller than the current
clock), a send step, and an internal event each produce a new
`local_clock` value greater than or equal to the old one. -/
theorem local_clock_monotone (sys_time : Int) (recipients : List (String × Int))
    (s s2 : MachineState) (h : handle_receive sys_time s = some s2) :
    s.local_clock ≤ s2.local_clock ∧
    s.local_clock ≤ ((send_message sys_time recipients s).1).local_clock ∧
    s.local_clock ≤ (internal_event sys_time s).local_clock := by
  refine ⟨?_, by simp [send_message], by simp [internal_event]⟩
  match hq : s.incoming_queue with
  | [] => rw [handle_receive, hq] at h; exact absurd h (by simp)
  | t :: rest =>
    rw [handle_receive, hq] at h
    have : s2.local_clock = max s.local_clock t + 1 := by
      cases Option.some.inj h; rfl
    rw [this]
    calc s.local_clock ≤ max s.local_clock t := le_max_left _ _
      _ ≤ max s.local_clock t + 1 := by omega

/-- C7 witness: a machine at clock 5 receiving the timestamp `-3` (smaller
than the clock) still does not decrease: all three operations give a new
clock at least 5. -/
theorem local_clock_monotone_witness :
    (5 : Int) ≤ 6 ∧ (5 : Int) ≤ 6 ∧ (5 : Int) ≤ 6 := by
  have h := local_clock_monotone 1 [("localhost", 5002)]
    { machineInit 3 5003 [("localhost", 5002)] "log" 60 2 with
        local_clock := 5, incoming_queue := [-3] }
    { machineInit 3 5003 [("localhost", 5002)] "log" 60 2 with
        local_clock := 6, incoming_queue := [], log := [.receive 1 5 6 0] }
    (by decide)
  exact ⟨h.1, h.2.1, h.2.2⟩

/-- C3: on an empty-queue tick with draw `r` uniform in [1,10]: `r = 1` with
at least one peer sends to peer 0 only; `r = 2` with at least two peers sends
to peer 1 only; `r = 3` with at least two peers sends to all peers; any other
draw, or a drawn SEND whose peer-count requirement is unmet, is an INTERNAL
event.  Consequently a zero-peer machine never emits a SEND over a whole run
and every non-RECEIVE record of its log is INTERNAL. -/
theorem no_message_dispatch (sys_time r : Int) (s : MachineState) :
    (∀ p0 ps, s.peer_addresses = p0 :: ps → r = 1 →
      handle_no_message sys_time r s = send_message sys_time [p0] s) ∧
    (∀ p0 p1 ps, s.peer_addresses = p0 :: p1 :: ps → r = 2 →
      handle_no_message sys_time r s = send_message sys_time [p1] s) ∧
    (∀ p0 p1 ps, s.peer_addresses = p0 :: p1 :: ps → r = 3 →
      handle_no_message sys_time r s = send_message sys_time (p0 :: p1 :: ps) s) ∧
    (r ≠ 1 → r ≠ 2 → r ≠ 3 →
      handle_no_message sys_time r s = (internal_event sys_time s, [])) ∧
    (s.peer_addresses = [] →
      handle_no_message sys_time r s = (internal_event sys_time s, [])) ∧
    ((r = 2 ∨ r = 3) → s.peer_addresses.length ≤ 1 →
      handle_no_message sys_time r s = (internal_event sys_time s, [])) ∧
    (∀ (mid port : Int) (file : String) (secs rate : Int) (ticks : List TickInput),
      ∀ e ∈ (start ticks (machineInit mid port [] file secs rate)).log,
        e.isSendEvt = false ∧ (e.isReceiveEvt = true ∨ e.isInternalEvt = true)) := by
  refine ⟨?_, ?_, ?_, ?_, ?_, ?_, ?_⟩
  · intro p0 ps hp hr
    subst hr
    simp [handle_no_message, hp]
  · intro p0 p1 ps hp hr
    subst hr
    simp [handle_no_message, hp]
  · intro p0 p1 ps hp hr
    subst hr
    simp [handle_no_message, hp]
  · intro h1 h2 h3
    simp [handle_no_message, h1, h2, h3]
  · intro hp
    simp [handle_no_message, hp]
  · intro hr hlen
    rcases hr with hr | hr <;> subst hr <;>
      simp [handle_no_message] <;> omega
  · intro mid port file secs rate ticks e he
    obtain ⟨l, hl, hev⟩ := start_log_append ticks (machineInit mid port [] file secs rate)
    rw [hl] at he
    simp only [machineInit, List.nil_append] at he
    have hte := hev e he
    refine ⟨hte.2 rfl, ?_⟩
    rcases hte.1 with h | h | h
    · exact Or.inl h
    · exact absurd h (by simp [hte.2 rfl])
    · exact Or.inr h

/-- C3 witness: with two peers `("a", 1), ("b", 2)` and an empty queue, draw
1 sends to peer 0 only, draw 2 to peer 1 only, draw 3 to both, draw 7 is
INTERNAL; a zero-peer machine dispatches draw 1 to INTERNAL. -/
theorem no_message_dispatch_witness :
    (handle_no_message 0 1 (machineInit 1 5001 [("a", 1), ("b", 2)] "log" 60 3) =
      send_message 0 [("a", 1)] (machineInit 1 5001 [("a", 1), ("b", 2)] "log" 60 3)) ∧
    (handle_no_message 0 2 (machineInit 1 5001 [("a", 1), ("b", 2)] "log" 60 3) =
      send_message 0 [("b", 2)] (machineInit 1 5001 [("a", 1), ("b", 2)] "log" 60 3)) ∧
    (handle_no_message 0 3 (machineInit 1 5001 [("a", 1), ("b", 2)] "log" 60 3) =
      send_message 0 [("a", 1), ("b", 2)] (machineInit 1 5001 [("a", 1), ("b", 2)] "log" 60 3)) ∧
    (handle_no_message 0 7 (machineInit 1 5001 [("a", 1), ("b", 2)] "log" 60 3) =
      (internal_event 0 (machineInit 1 5001 [("a", 1), ("b", 2)] "log" 60 3), [])) ∧
    (handle_no_message 0 1 (machineInit 2 5002 [] "log" 60 3) =
      (internal_event 0 (machineInit 2 5002 [] "log" 60 3), [])) :=
  ⟨(no_message_dispatch 0 1 _).1 ("a", 1) [("b", 2)] rfl rfl,
   (no_message_dispatch 0 2 _).2.1 ("a", 1) ("b", 2) [] rfl rfl,
   (no_message_dispatch 0 3 _).2.2.1 ("a", 1) ("b", 2) [] rfl rfl,
   (no_message_dispatch 0 7 _).2.2.2.1 (by decide) (by decide) (by decide),
   (no_message_dispatch 0 1 _).2.2.2.2.1 rfl⟩

/-- C4: the claim (and the repository's own test
`test_machine_startup_logging`) requires exactly one STARTUP record per run,
but `machine.py` contains no code writing a STARTUP record: over any
complete run (creation through `start`), the log holds zero records whose
`event` field is "STARTUP". -/
theorem run_writes_no_startup (machine_id listen_port : Int)
    (peers : List (String × Int)) (file : String) (secs rate : Int)
    (ticks : List TickInput) :
    ((start ticks (machineInit machine_id listen_port peers file secs rate)).log).countP
      (fun e => e.eventName == "STARTUP") = 0 := by
  obtain ⟨l, hl, hev⟩ :=
    start_log_append ticks (machineInit machine_id listen_port peers file secs rate)
  rw [hl]
  simp only [machineInit, List.nil_append]
  rw [List.countP_eq_zero]
  intro e he
  have := tickEvt_not_startup (hev e he)
  simpa using this

/-- C5: the claim (and the repository's own test `test_machine_end_event`)
requires exactly one END record per run, but `Machine.shutdown` only closes
the socket and the log file: over any complete run, the log holds zero
records whose `event` field is "END". -/
theorem run_writes_no_end (machine_id listen_port : Int)
    (peers : List (String × Int)) (file : String) (secs rate : Int)
    (ticks : List TickInput) :
    ((start ticks (machineInit machine_id listen_port peers file secs rate)).log).countP
      (fun e => e.eventName == "END") = 0 := by
  obtain ⟨l, hl, hev⟩ :=
    start_log_append ticks (machineInit machine_id listen_port peers file secs rate)
  rw [hl]
  simp only [machineInit, List.nil_append]
  rw [List.countP_eq_zero]
  intro e he
  have := tickEvt_not_end (hev e he)
  simpa using this

theorem processLine_eq (q : List Int) (line : String) :
    processLine q line =
      q ++ (if line.trim.isEmpty then none else pyInt line.trim).toList := by
  unfold processLine
  by_cases he : line.trim.isEmpty
  · simp [he]
  · simp only [he, if_false]
    cases hp : pyInt line.trim <;> simp

theorem foldl_processLine (lines : List String) (q : List Int) :
    lines.foldl processLine q =
      q ++ lines.filterMap
        (fun line => if line.trim.isEmpty then none else pyInt line.trim) := by
  induction lines generalizing q with
  | nil => simp
  | cons hd tl ih =>
    rw [List.foldl_cons, processLine_eq, ih, List.filterMap_cons]
    cases hif : (if hd.trim.isEmpty then none else pyInt hd.trim) <;> simp [hif]

/-- C8: handling one received chunk splits it on newlines and enqueues, in
order of appearance, exactly the integers of the parseable non-empty lines:
a line failing `int()` contributes nothing (the `ValueError` is swallowed),
processing continues with the remaining lines, and the function is total (no
exception escapes) and never touches the log. -/
theorem connection_handler_lines (q : List Int) (data : String) :
    handleIncomingData q data = q ++ parsedTimestamps data := by
  unfold handleIncomingData parsedTimestamps
  exact foldl_processLine _ q

/-- C9 counterexample: the SEND record of a one-recipient send, serialized
and re-parsed, is not identical to the emitted record — the `(host, port)`
tuple inside `recipients` comes back as a two-element list. -/
theorem send_record_round_trip_not_identity :
    jsonRoundTrip (sendEventData 0 0 1 [("localhost", 5002)]) ≠
      sendEventData 0 0 1 [("localhost", 5002)] := by
  intro h
  have h2 := congrArg PyValue.containsTuple h
  have hL : (jsonRoundTrip (sendEventData 0 0 1 [("localhost", 5002)])).containsTuple
      = false := by decide
  have hR : (sendEventData 0 0 1 [("localhost", 5002)]).containsTuple = true := by decide
  rw [hL, hR] at h2
  exact Bool.false_ne_true h2

theorem round_trip_recipients (recips : List (String × Int)) :
    pyLoadsList (pyDumpsList (recips.map fun hp => PyValue.tuple [.str hp.1, .int hp.2])) =
      recips.map fun hp => PyValue.list [.str hp.1, .int hp.2] := by
  induction recips with
  | nil => rfl
  | cons hd tl ih =>
    simp only [List.map_cons, pyDumpsList, pyDumps, pyLoadsList, pyLoads, ih]

/-- C9 amended: serializing an emitted record as a JSON line and re-parsing
it reproduces every field value exactly for RECEIVE and INTERNAL records;
for SEND records every scalar field is reproduced exactly and `recipients`
is reproduced with each `(host, port)` tuple re-parsed as a two-element
list, preserving order and content. -/
theorem event_record_round_trip (sys_time old_clock new_clock : Int) (queue_len : Nat)
    (recipients : List (String × Int)) :
    jsonRoundTrip (receiveEventData sys_time old_clock new_clock queue_len) =
      receiveEventData sys_time old_clock new_clock queue_len ∧
    jsonRoundTrip (internalEventData sys_time old_clock new_clock) =
      internalEventData sys_time old_clock new_clock ∧
    jsonRoundTrip (sendEventData sys_time old_clock new_clock recipients) =
      sendEventDataParsed sys_time old_clock new_clock recipients := by
  refine ⟨rfl, rfl, ?_⟩
  simp only [jsonRoundTrip, sendEventData, sendEventDataParsed, pyDumps, pyDumpsKVs,
    pyDumpsList, pyLoads, pyLoadsKVs, pyLoadsList, round_trip_recipients]

/-- C10: each per-tick operation leaves `machine_id`, `clock_rate`,
`peer_addresses`, `listen_port`, `log_filename`, `run_seconds` and `running`
unchanged — only `local_clock`, the inbound queue and the appended log
record differ. -/
theorem per_tick_frame (sys_time : Int) (recipients : List (String × Int))
    (s s2 : MachineState) (h : handle_receive sys_time s = some s2) :
    (s2.machine_id = s.machine_id ∧ s2.clock_rate = s.clock_rate ∧
     s2.peer_addresses = s.peer_addresses ∧ s2.listen_port = s.listen_port ∧
     s2.log_filename = s.log_filename ∧ s2.run_seconds = s.run_seconds ∧
     s2.running = s.running) ∧
    (((send_message sys_time recipients s).1).machine_id = s.machine_id ∧
     ((send_message sys_time recipients s).1).clock_rate = s.clock_rate ∧
     ((send_message sys_time recipients s).1).peer_addresses = s.peer_addresses ∧
     ((send_message sys_time recipients s).1).listen_port = s.listen_port ∧
     ((send_message sys_time recipients s).1).log_filename = s.log_filename ∧
     ((send_message sys_time recipients s).1).run_seconds = s.run_seconds ∧
     ((send_message sys_time recipients s).1).running = s.running) ∧
    ((internal_event sys_time s).machine_id = s.machine_id ∧
     (internal_event sys_time s).clock_rate = s.clock_rate ∧
     (internal_event sys_time s).peer_addresses = s.peer_addresses ∧
     (internal_event sys_time s).listen_port = s.listen_port ∧
     (internal_event sys_time s).log_filename = s.log_filename ∧
     (internal_event sys_time s).run_seconds = s.run_seconds ∧
     (internal_event sys_time s).running = s.running) := by
  refine ⟨?_, ⟨rfl, rfl, rfl, rfl, rfl, rfl, rfl⟩, ⟨rfl, rfl, rfl, rfl, rfl, rfl, rfl⟩⟩
  match hq : s.incoming_queue with
  | [] => rw [handle_receive, hq] at h; exact absurd h (by simp)
  | t :: rest =>
    rw [handle_receive, hq] at h
    cases Option.some.inj h
    exact ⟨rfl, rfl, rfl, rfl, rfl, rfl, rfl⟩

/-- C10 witness: on a concrete machine with one queued value, all three
operations leave the seven configuration and lifecycle fields unchanged. -/
theorem per_tick_frame_witness :
    ((1 : Int) = 1 ∧ (4 : Int) = 4 ∧ [("a", (1 : Int))] = [("a", (1 : Int))] ∧
     (5001 : Int) = 5001 ∧ "log" = "log" ∧ (60 : Int) = 60 ∧ true = true) ∧
    (((send_message 9 [("a", 1)]
        { machineInit 1 5001 [("a", 1)] "log" 60 4 with incoming_queue := [2] }).1).machine_id = 1 ∧
     ((send_message 9 [("a", 1)]
        { machineInit 1 5001 [("a", 1)] "log" 60 4 with incoming_queue := [2] }).1).clock_rate = 4 ∧
     ((send_message 9 [("a", 1)]
        { machineInit 1 5001 [("a", 1)] "log" 60 4 with incoming_queue := [2] }).1).peer_addresses = [("a", 1)] ∧
     ((send_message 9 [("a", 1)]
        { machineInit 1 5001 [("a", 1)] "log" 60 4 with incoming_queue := [2] }).1).listen_port = 5001 ∧
     ((send_message 9 [("a", 1)]
        { machineInit 1 5001 [("a", 1)] "log" 60 4 with incoming_queue := [2] }).1).log_filename = "log" ∧
     ((send_message 9 [("a", 1)]
        { machineInit 1 5001 [("a", 1)] "log" 60 4 with incoming_queue := [2] }).1).run_seconds = 60 ∧
     ((send_message 9 [("a", 1)]
        { machineInit 1 5001 [("a", 1)] "log" 60 4 with incoming_queue := [2] }).1).running = true) ∧
    ((internal_event 9
        { machineInit 1 5001 [("a", 1)] "log" 60 4 with incoming_queue := [2] }).machine_id = 1 ∧
     (internal_event 9
        { machineInit 1 5001 [("a", 1)] "log" 60 4 with incoming_queue := [2] }).clock_rate = 4 ∧
     (internal_event 9
        { machineInit 1 5001 [("a", 1)] "log" 60 4 with incoming_queue := [2] }).peer_addresses = [("a", 1)] ∧
     (internal_event 9
        { machineInit 1 5001 [("a", 1)] "log" 60 4 with incoming_queue := [2] }).listen_port = 5001 ∧
     (internal_event 9
        { machineInit 1 5001 [("a", 1)] "log" 60 4 with incoming_queue := [2] }).log_filename = "log" ∧
     (internal_event 9
        { machineInit 1 5001 [("a", 1)] "log" 60 4 with incoming_queue := [2] }).run_seconds = 60 ∧
     (internal_event 9
        { machineInit 1 5001 [("a", 1)] "log" 60 4 with incoming_queue := [2] }).running = true) := by
  have h := per_tick_frame 9 [("a", 1)]
    { machineInit 1 5001 [("a", 1)] "log" 60 4 with incoming_queue := [2] }
    { machineInit 1 5001 [("a", 1)] "log" 60 4 with
        local_clock := 3, incoming_queue := [], log := [.receive 9 0 3 0] }
    (by decide)
  exact ⟨⟨h.1.1, h.1.2.1, h.1.2.2.1, h.1.2.2.2.1, h.1.2.2.2.2.1,
      h.1.2.2.2.2.2.1, h.1.2.2.2.2.2.2⟩, h.2.1, h.2.2⟩

end LogicalClocks
